import Mathlib

/-!
Verification development for the Umazen secure data loader
(`src/federated-learning/client/py/src/utils/data_loader.py`, class
`SecureDataLoader`).  The Python code is shallowly embedded: JSON/Python
values become the inductive `PyVal`, Python's `in` / subscription /
iteration become `pyContains` / `pySubscript` / `pyIterate` over `Except`
(the `.error` constructors standing for raised exceptions), and the
fetch/stream pipeline becomes pure functions that additionally return an
explicit trace of observable events (download calls, sleeps, cache writes).
External I/O (the transport layer reached through `_download_shard`) is
abstracted as an oracle `Nat → Except Unit (List Nat)` giving, per attempt
index, either a raised exception or the downloaded bytes; the SHA3-256
digest used by `_verify_data_hash` is abstracted as a function parameter
`hashFn : List Nat → String` applied to the exact bytes retrieved.
-/

namespace Umazen

/-- Python values as produced by `json.loads`: `None`, booleans, numbers
(integers suffice for the claims), strings, lists and string-keyed dicts.
Floats are not needed by any claim and are omitted. -/
inductive PyVal where
  | pyNull
  | pyBool (b : Bool)
  | pyInt (n : Int)
  | pyStr (s : String)
  | pyList (xs : List PyVal)
  | pyDict (kvs : List (String × PyVal))

/-- Python exceptions that escape or are converted inside the manifest /
streaming code paths.  `invalidJSON` is the `ValueError("Invalid JSON in
manifest")` raised for a `json.JSONDecodeError`; `invalidStructure` and
`missingHashes` are the `ValueError("Manifest validation failed: ...")`
conversions of the two `AssertionError`s in `_parse_manifest` (the spec's
`ManifestMalformed` covers `invalidJSON` and `invalidStructure`, the spec's
`ManifestInvalid` is `missingHashes`); `typeError` and `keyError` are the
Python `TypeError` / `KeyError` exceptions, which `_parse_manifest` does not
catch. -/
inductive PyErr where
  | typeError
  | keyError (key : String)
  | invalidJSON
  | invalidStructure
  | missingHashes
deriving Repr, DecidableEq

def datasetsKey : String := "datasets"

def hashKey : String := "hash"

def uriKey : String := "uri"

def featuresKey : String := "features"

/-- Whether the character list `needle` occurs contiguously in `hay`
(Python substring containment used by `str.__contains__`). -/
def charsInfixOf (needle : List Char) : List Char → Bool
  | [] => needle.isPrefixOf []
  | b :: bs => needle.isPrefixOf (b :: bs) || charsInfixOf needle bs

/-- Python `key in v` for a string `key`: key membership for a dict,
element equality for a list (equality of a `str` with a non-`str` value is
`False`, never an error), substring containment for a `str`, and a raised
`TypeError` for every other value. -/
def pyContains (key : String) : PyVal → Except PyErr Bool
  | .pyDict kvs => .ok (kvs.any (fun kv => kv.1 == key))
  | .pyList xs =>
      .ok (xs.any (fun x =>
        match x with
        | .pyStr t => t == key
        | _ => false))
  | .pyStr s => .ok (charsInfixOf key.toList s.toList)
  | _ => .error .typeError

/-- Python `v[key]` for a string `key`: dict lookup (raising `KeyError`
when the key is absent) and a raised `TypeError` on every non-dict value
(lists and strings reject string subscripts). -/
def pySubscript (v : PyVal) (key : String) : Except PyErr PyVal :=
  match v with
  | .pyDict kvs =>
      match kvs.find? (fun kv => kv.1 == key) with
      | some kv => .ok kv.2
      | none => .error (.keyError key)
  | _ => .error .typeError

/-- Python iteration `for x in v`: the elements of a list, the keys of a
dict, the one-character strings of a `str`, and a raised `TypeError` for
every other value. -/
def pyIterate : PyVal → Except PyErr (List PyVal)
  | .pyList xs => .ok xs
  | .pyDict kvs => .ok (kvs.map (fun kv => PyVal.pyStr kv.1))
  | .pyStr s => .ok (s.toList.map (fun c => PyVal.pyStr (String.singleton c)))
  | _ => .error .typeError

/-- Python `all(key in d for d in entries)`: lazily evaluates `key in d`
left to right, stopping at the first `False` (so a `TypeError` hiding in a
later element is never reached) or propagating a raised exception. -/
def pyAllContain (key : String) : List PyVal → Except PyErr Bool
  | [] => .ok true
  | d :: ds =>
      match pyContains key d with
      | .error e => .error e
      | .ok true => pyAllContain key ds
      | .ok false => .ok false

/-- Translated from `SecureDataLoader._parse_manifest`.  The input is the
outcome of `json.loads` on the raw document: `.error` for a
`json.JSONDecodeError` (converted to `invalidJSON`), otherwise the parsed
value.  The body then runs `assert "datasets" in manifest` (an
`AssertionError` is converted to `invalidStructure`) and
`assert all("hash" in d for d in manifest["datasets"])` (converted to
`missingHashes`); a `TypeError` or `KeyError` raised by `in`, subscription
or iteration is caught by neither `except` clause and escapes.  On success
the parsed value itself is returned, unchanged. -/
def parseManifest (input : Except Unit PyVal) : Except PyErr PyVal :=
  match input with
  | .error _ => .error .invalidJSON
  | .ok manifest =>
      match pyContains datasetsKey manifest with
      | .error e => .error e
      | .ok false => .error .invalidStructure
      | .ok true =>
          match pySubscript manifest datasetsKey with
          | .error e => .error e
          | .ok ds =>
              match pyIterate ds with
              | .error e => .error e
              | .ok entries =>
                  match pyAllContain hashKey entries with
                  | .error e => .error e
                  | .ok false => .error .missingHashes
                  | .ok true => .ok manifest

/-- Errors surfaced by `SecureDataLoader.initialize`: a failure of manifest
loading/parsing, or the `ManifestTampered` failure the spec requires when
the external integrity authority does not confirm the manifest digest. -/
inductive InitErr where
  | parseFailure (e : PyErr)
  | manifestTampered
deriving Repr, DecidableEq

/-- Translated from `SecureDataLoader._verify_manifest_on_chain`.  The
entire body of the Python method is a comment (the intended digest
comparison exists only as pseudocode inside it) followed by
`self.logger.info("Manifest blockchain verification passed")`; it computes
nothing, consults no authority, and never raises.  The `authority`
argument models the external integrity authority (`verify(digest) ->
bool`); the code ignores it. -/
def verifyManifestOnChain (manifest : PyVal) (authority : PyVal → Bool) :
    Except InitErr Unit :=
  .ok ()

/-- Translated from `SecureDataLoader.initialize`: load and parse the
manifest, then — when chain verification is enabled — run
`_verify_manifest_on_chain`.  `rawManifest` is the transport's outcome fed
to `_parse_manifest` (the transports themselves are external I/O). -/
def initializeLoader (verifyChain : Bool) (rawManifest : Except Unit PyVal)
    (authority : PyVal → Bool) : Except InitErr PyVal :=
  match parseManifest rawManifest with
  | .error e => .error (.parseFailure e)
  | .ok m =>
      if verifyChain then
        match verifyManifestOnChain m authority with
        | .error e => .error e
        | .ok _ => .ok m
      else .ok m

/-- Observable events of a `_fetch_shard` run: a call into
`_download_shard` for a given 0-based attempt index, a `time.sleep` of the
given number of seconds, the `cache_path.unlink()` eviction, and the
`_write_to_cache` write. -/
inductive Ev where
  | downloadCall (attempt : Nat)
  | sleepFor (secs : Nat)
  | unlinkCache
  | writeCache
deriving Repr, DecidableEq

/-- The environment of one `_fetch_shard` call: whether
`cache_path.exists()`, the bytes currently stored at the cache path, and
the transport oracle: for each 0-based attempt index, either a raised
exception (`.error`) or the bytes `_download_shard` returns.  Bytes are
modelled as `List Nat`. -/
structure ShardEnv where
  cacheExists : Bool
  cachedBytes : List Nat
  download : Nat → Except Unit (List Nat)

/-- Exceptions escaping `_fetch_shard` (and, more broadly, a worker's
`_process_shard` body): the `AttributeError` raised because
`SecureDataLoader` has no `_generate_hash` method, the final
`IOError(f"Failed to download shard after 3 attempts: {shard_uri}")`
(the spec's `ShardUnavailable`, carrying the URI and the attempt count
from the message), and a `TypeError` from handing a non-string shard field
to the path machinery. -/
inductive FetchErr where
  | attributeError
  | shardUnavailable (uri : String) (attempts : Nat)
  | typeError
deriving Repr, DecidableEq

/-- Result of a successful `_fetch_shard`: the code returns `cache_path`
in both the cache-hit branch and the verified-download branch; the model
additionally records which branch produced it and the bytes the returned
path holds. -/
structure FetchRes where
  data : List Nat
  fromCache : Bool

/-- Translated from `SecureDataLoader._validate_cached_file`.  The body
reads the cached file and then calls `self._generate_hash(...)` — but no
`_generate_hash` is defined anywhere on `SecureDataLoader` (the only
`_generate_hash` in the repository is a static method of `UmazenClient` in
`client.py`), so the call raises `AttributeError` unconditionally; the
comparison against `expected_hash` is never reached. -/
def validateCachedFile (cachedBytes : List Nat) (expected : String) :
    Except FetchErr Bool :=
  .error .attributeError

/-- Translated from the `for attempt in range(3)` loop of
`SecureDataLoader._fetch_shard`.  `attempt` is the current 0-based index,
`remaining` the number of loop iterations left.  Per iteration:
`_download_shard` is called; if it raises, the `except` clause logs and
runs `time.sleep(2 ** attempt)` (1 s base delay); if it returns bytes whose
`_verify_data_hash` matches, the bytes are written to the cache and the
path is returned; if the hash mismatches, the body falls through to the
next iteration with no sleep.  When the loop ends,
`IOError("Failed to download shard after 3 attempts: ...")` is raised. -/
def fetchAttempts (hashFn : List Nat → String) (env : ShardEnv)
    (uri expected : String) :
    Nat → Nat → Except FetchErr FetchRes × List Ev
  | _, 0 => (.error (.shardUnavailable uri 3), [])
  | attempt, remaining + 1 =>
      match env.download attempt with
      | .error _ =>
          let rest := fetchAttempts hashFn env uri expected (attempt + 1) remaining
          (rest.1, .downloadCall attempt :: .sleepFor (2 ^ attempt) :: rest.2)
      | .ok raw =>
          if hashFn raw == expected then
            (.ok { data := raw, fromCache := false },
             [.downloadCall attempt, .writeCache])
          else
            let rest := fetchAttempts hashFn env uri expected (attempt + 1) remaining
            (rest.1, .downloadCall attempt :: rest.2)

/-- Translated from `SecureDataLoader._fetch_shard`: if the cache file
exists, `_validate_cached_file` decides between returning the cached path
and unlinking the stale file before downloading (that call is outside any
`try`, so its exception propagates); otherwise the three-attempt download
loop runs.  Returns the outcome together with the event trace. -/
def fetchShard (hashFn : List Nat → String) (env : ShardEnv)
    (uri expected : String) : Except FetchErr FetchRes × List Ev :=
  if env.cacheExists then
    match validateCachedFile env.cachedBytes expected with
    | .error e => (.error e, [])
    | .ok true => (.ok { data := env.cachedBytes, fromCache := true }, [])
    | .ok false =>
        let rest := fetchAttempts hashFn env uri expected 0 3
        (rest.1, .unlinkCache :: rest.2)
  else fetchAttempts hashFn env uri expected 0 3

/-- Attempt `i` of the download loop fails: either `_download_shard`
raises, or it returns bytes whose hash does not match `expected`. -/
def attemptFails (hashFn : List Nat → String) (env : ShardEnv)
    (expected : String) (i : Nat) : Bool :=
  match env.download i with
  | .error _ => true
  | .ok raw => !(hashFn raw == expected)

/-- Attempt `i` of the download loop fails by a raised exception (as
opposed to a hash mismatch on successfully downloaded bytes). -/
def attemptRaises (env : ShardEnv) (i : Nat) : Bool :=
  match env.download i with
  | .error _ => true
  | .ok _ => false

/-- The 0-based attempt indices the download loop actually executes: it
stops after the first non-failing attempt and runs all of `0, 1, 2`
otherwise. -/
def executedAttempts (hashFn : List Nat → String) (env : ShardEnv)
    (expected : String) : List Nat :=
  if attemptFails hashFn env expected 0 = false then [0]
  else if attemptFails hashFn env expected 1 = false then [0, 1]
  else [0, 1, 2]

/-- Recognizes `time.sleep` events in a fetch trace. -/
def isSleep : Ev → Bool
  | .sleepFor _ => true
  | _ => false

/-- Recognizes `_download_shard` calls in a fetch trace. -/
def isDownloadCall : Ev → Bool
  | .downloadCall _ => true
  | _ => false

/-- A produced batch: the Python dict `{"features": <array slice>}`,
modelled as an association list with the single key `"features"`. -/
abbrev DataBatch := List (String × List Nat)

/-- Python `range(start, stop, step)` for a positive `step`: the
arithmetic progression `start, start + step, ...` strictly below `stop`,
of length `⌈(stop - start) / step⌉`. -/
def pythonRange (start stop step : Nat) : List Nat :=
  (List.range ((stop - start + step - 1) / step)).map (fun k => start + k * step)

/-- Translated from `SecureDataLoader._load_and_batch`: the fetched file
is viewed as a flat numeric array `samples`; for each `i` in
`range(0, num_samples, batch_size)` the slice `samples[i : i + batch_size]`
is wrapped as `{"features": slice}`. -/
def loadAndBatch (samples : List Nat) (batchSize : Nat) : List DataBatch :=
  (pythonRange 0 samples.length batchSize).map
    (fun i => [(featuresKey, (samples.drop i).take batchSize)])

/-- The body of `SecureDataLoader._process_shard`'s `try` block: fetch the
shard, then slice it into batches.  A non-string `uri`/`hash` field makes
the worker's path handling raise `TypeError`.  `envOf` gives the fetch
environment (cache state, transport oracle) of each shard URI. -/
def shardBody (hashFn : List Nat → String) (envOf : String → ShardEnv)
    (batchSize : Nat) (uriV hashV : PyVal) : Except FetchErr (List DataBatch) :=
  match uriV, hashV with
  | .pyStr uri, .pyStr expected =>
      match (fetchShard hashFn (envOf uri) uri expected).1 with
      | .error e => .error e
      | .ok res => .ok (loadAndBatch res.data batchSize)
  | _, _ => .error .typeError

/-- Translated from `SecureDataLoader._process_shard`: the `except
Exception` clause turns every failure of the body into a logged message
and an empty batch list. -/
def processShard (hashFn : List Nat → String) (envOf : String → ShardEnv)
    (batchSize : Nat) (uriV hashV : PyVal) : List DataBatch :=
  match shardBody hashFn envOf batchSize uriV hashV with
  | .error _ => []
  | .ok bs => bs

/-- Translated from the submit loop of `SecureDataLoader.stream_batches`:
walking the manifest's shard list in order, each shard's `shard["uri"]`
and `shard["hash"]` are read in the driving thread while the task is
submitted; a `KeyError`/`TypeError` there propagates out of the generator
at once. -/
def gatherShards : List PyVal → Except PyErr (List (PyVal × PyVal))
  | [] => .ok []
  | shard :: rest =>
      match pySubscript shard uriKey with
      | .error e => .error e
      | .ok u =>
          match pySubscript shard hashKey with
          | .error e => .error e
          | .ok h =>
              match gatherShards rest with
              | .error e => .error e
              | .ok tail => .ok ((u, h) :: tail)

/-- The argument gathering of `stream_batches`: evaluate
`self.manifest["datasets"]`, iterate it, and read each shard's `uri` and
`hash` fields in manifest order. -/
def streamGather (manifest : PyVal) : Except PyErr (List (PyVal × PyVal)) :=
  match pySubscript manifest datasetsKey with
  | .error e => .error e
  | .ok ds =>
      match pyIterate ds with
      | .error e => .error e
      | .ok entries => gatherShards entries

/-- Translated from `SecureDataLoader.stream_batches`.  One
`_process_shard` task per shard is submitted to the worker pool; the
driving loop then walks the `futures` list in submission (manifest) order
and yields every batch of `future.result()` before moving to the next
future.  `sched` stands for the completion order of the pool's tasks: each
task's result is a pure function of its shard arguments and results are
read via `future.result()` in submission order, so the schedule cannot
influence the yielded sequence — the definition therefore does not depend
on it. -/
def streamBatches (hashFn : List Nat → String) (envOf : String → ShardEnv)
    (batchSize : Nat) (manifest : PyVal) (sched : List Nat) :
    Except PyErr (List DataBatch) :=
  match streamGather manifest with
  | .error e => .error e
  | .ok pairs =>
      .ok (List.flatten (pairs.map
        (fun p => processShard hashFn envOf batchSize p.1 p.2)))

/-! Concrete fixtures used by witnesses, counterexamples and code-bug
evaluations. -/

/-- An integrity authority that confirms no digest at all. -/
def rejectAll : PyVal → Bool := fun _ => false

def uriA : String := "file://a.bin"

def uriB : String := "file://b.bin"

def hexGood : String := "h1"

def hexBad : String := "h0"

def emptyStr : String := ""

/-- A well-formed manifest: one dataset entry with a `uri` and a `hash`. -/
def goodManifest : PyVal :=
  .pyDict [(datasetsKey, .pyList
    [.pyDict [(uriKey, .pyStr uriA), (hashKey, .pyStr hexGood)]])]

/-- A manifest `_parse_manifest` accepts whose `datasets` list is empty. -/
def emptyDatasetsManifest : PyVal := .pyDict [(datasetsKey, .pyList [])]

/-- A manifest `_parse_manifest` accepts whose single entry has an empty
`hash` value and no `uri` field at all. -/
def emptyHashManifest : PyVal :=
  .pyDict [(datasetsKey, .pyList [.pyDict [(hashKey, .pyStr emptyStr)]])]

/-- A manifest whose entries all carry a `hash` but whose second entry has
no `uri` field. -/
def urilessManifest : PyVal :=
  .pyDict [(datasetsKey, .pyList
    [.pyDict [(uriKey, .pyStr uriA), (hashKey, .pyStr hexGood)],
     .pyDict [(hashKey, .pyStr hexGood)]])]

/-- A hash oracle recognizing `[1, 2, 3]` as the payload with digest
`hexGood`. -/
def demoHash : List Nat → String := fun raw =>
  if raw == [1, 2, 3] then hexGood else hexBad

/-- A fetch environment whose cache file exists and stores exactly the
bytes with the expected digest. -/
def cachedEnv : ShardEnv :=
  { cacheExists := true, cachedBytes := [1, 2, 3],
    download := fun _ => .error () }

/-! Helper lemmas about the retry loop. -/

lemma forall_lt_three (p : Nat → Prop) :
    (∀ i, i < 3 → p i) ↔ p 0 ∧ p 1 ∧ p 2 := by
  constructor
  · intro h
    exact ⟨h 0 (by omega), h 1 (by omega), h 2 (by omega)⟩
  · rintro ⟨h0, h1, h2⟩ i hi
    interval_cases i <;> assumption

lemma fetchShard_eq_attempts (hashFn : List Nat → String) (env : ShardEnv)
    (uri expected : String) (hmiss : env.cacheExists = false) :
    fetchShard hashFn env uri expected =
      fetchAttempts hashFn env uri expected 0 3 := by
  simp [fetchShard, hmiss]

/-- When every one of the three attempts fails (exception or hash
mismatch), the loop falls through to the final `IOError`. -/
lemma fetchAttempts_all_fail (hashFn : List Nat → String) (env : ShardEnv)
    (uri expected : String)
    (h0 : attemptFails hashFn env expected 0 = true)
    (h1 : attemptFails hashFn env expected 1 = true)
    (h2 : attemptFails hashFn env expected 2 = true) :
    (fetchAttempts hashFn env uri expected 0 3).1 =
      .error (.shardUnavailable uri 3) := by
  unfold attemptFails at h0 h1 h2
  cases hd0 : env.download 0 with
  | error e0 =>
    cases hd1 : env.download 1 with
    | error e1 =>
      cases hd2 : env.download 2 with
      | error e2 => simp [fetchAttempts, hd0, hd1, hd2]
      | ok raw2 =>
        rw [hd2] at h2
        simp only [Bool.not_eq_true'] at h2
        simp [fetchAttempts, hd0, hd1, hd2, h2]
    | ok raw1 =>
      rw [hd1] at h1
      simp only [Bool.not_eq_true'] at h1
      cases hd2 : env.download 2 with
      | error e2 => simp [fetchAttempts, hd0, hd1, hd2, h1]
      | ok raw2 =>
        rw [hd2] at h2
        simp only [Bool.not_eq_true'] at h2
        simp [fetchAttempts, hd0, hd1, hd2, h1, h2]
  | ok raw0 =>
    rw [hd0] at h0
    simp only [Bool.not_eq_true'] at h0
    cases hd1 : env.download 1 with
    | error e1 =>
      cases hd2 : env.download 2 with
      | error e2 => simp [fetchAttempts, hd0, hd1, hd2, h0]
      | ok raw2 =>
        rw [hd2] at h2
        simp only [Bool.not_eq_true'] at h2
        simp [fetchAttempts, hd0, hd1, hd2, h0, h2]
    | ok raw1 =>
      rw [hd1] at h1
      simp only [Bool.not_eq_true'] at h1
      cases hd2 : env.download 2 with
      | error e2 => simp [fetchAttempts, hd0, hd1, hd2, h0, h1]
      | ok raw2 =>
        rw [hd2] at h2
        simp only [Bool.not_eq_true'] at h2
        simp [fetchAttempts, hd0, hd1, hd2, h0, h1, h2]

/-- When the first non-failing attempt is `j`, the loop returns the bytes
of attempt `j` and the trace records the cache write. -/
lemma fetchAttempts_success_at (hashFn : List Nat → String) (env : ShardEnv)
    (uri expected : String) (j : Nat) (hj : j < 3)
    (hprev : ∀ i, i < j → attemptFails hashFn env expected i = true)
    (hsucc : attemptFails hashFn env expected j = false) :
    ∃ raw, env.download j = .ok raw ∧ (hashFn raw == expected) = true ∧
      (fetchAttempts hashFn env uri expected 0 3).1 =
        .ok { data := raw, fromCache := false } ∧
      Ev.writeCache ∈ (fetchAttempts hashFn env uri expected 0 3).2 := by
  interval_cases j
  · unfold attemptFails at hsucc
    cases hd0 : env.download 0 with
    | error e0 => rw [hd0] at hsucc; cases hsucc
    | ok raw0 =>
      rw [hd0] at hsucc
      simp only [Bool.not_eq_false'] at hsucc
      exact ⟨raw0, rfl, hsucc, by simp [fetchAttempts, hd0, hsucc],
        by simp [fetchAttempts, hd0, hsucc]⟩
  · have h0 := hprev 0 (by omega)
    unfold attemptFails at h0 hsucc
    cases hd1 : env.download 1 with
    | error e1 => rw [hd1] at hsucc; cases hsucc
    | ok raw1 =>
      rw [hd1] at hsucc
      simp only [Bool.not_eq_false'] at hsucc
      cases hd0 : env.download 0 with
      | error e0 =>
        exact ⟨raw1, rfl, hsucc, by simp [fetchAttempts, hd0, hd1, hsucc],
          by simp [fetchAttempts, hd0, hd1, hsucc]⟩
      | ok raw0 =>
        rw [hd0] at h0
        simp only [Bool.not_eq_true'] at h0
        exact ⟨raw1, rfl, hsucc, by simp [fetchAttempts, hd0, hd1, h0, hsucc],
          by simp [fetchAttempts, hd0, hd1, h0, hsucc]⟩
  · have h0 := hprev 0 (by omega)
    have h1 := hprev 1 (by omega)
    unfold attemptFails at h0 h1 hsucc
    cases hd2 : env.download 2 with
    | error e2 => rw [hd2] at hsucc; cases hsucc
    | ok raw2 =>
      rw [hd2] at hsucc
      simp only [Bool.not_eq_false'] at hsucc
      cases hd0 : env.download 0 with
      | error e0 =>
        cases hd1 : env.download 1 with
        | error e1 =>
          exact ⟨raw2, rfl, hsucc,
            by simp [fetchAttempts, hd0, hd1, hd2, hsucc],
            by simp [fetchAttempts, hd0, hd1, hd2, hsucc]⟩
        | ok raw1 =>
          rw [hd1] at h1
          simp only [Bool.not_eq_true'] at h1
          exact ⟨raw2, rfl, hsucc,
            by simp [fetchAttempts, hd0, hd1, hd2, h1, hsucc],
            by simp [fetchAttempts, hd0, hd1, hd2, h1, hsucc]⟩
      | ok raw0 =>
        rw [hd0] at h0
        simp only [Bool.not_eq_true'] at h0
        cases hd1 : env.download 1 with
        | error e1 =>
          exact ⟨raw2, rfl, hsucc,
            by simp [fetchAttempts, hd0, hd1, hd2, h0, hsucc],
            by simp [fetchAttempts, hd0, hd1, hd2, h0, hsucc]⟩
        | ok raw1 =>
          rw [hd1] at h1
          simp only [Bool.not_eq_true'] at h1
          exact ⟨raw2, rfl, hsucc,
            by simp [fetchAttempts, hd0, hd1, hd2, h0, h1, hsucc],
            by simp [fetchAttempts, hd0, hd1, hd2, h0, h1, hsucc]⟩

/-- If the loop ended in the final `IOError`, no attempt succeeded. -/
lemma fetchAttempts_unavailable_all_fail (hashFn : List Nat → String)
    (env : ShardEnv) (uri expected : String)
    (hres : (fetchAttempts hashFn env uri expected 0 3).1 =
      .error (.shardUnavailable uri 3)) :
    ∀ i, i < 3 → attemptFails hashFn env expected i = true := by
  intro i hi
  by_contra hfi
  have hfi2 : attemptFails hashFn env expected i = false := by
    cases hfa : attemptFails hashFn env expected i
    · rfl
    · exact absurd hfa hfi
  by_cases h0 : attemptFails hashFn env expected 0 = false
  · obtain ⟨raw, -, -, hok, -⟩ :=
      fetchAttempts_success_at hashFn env uri expected 0 (by omega)
        (by omega) h0
    rw [hok] at hres
    exact Except.noConfusion hres
  · have h0t : attemptFails hashFn env expected 0 = true := by
      cases hfa : attemptFails hashFn env expected 0
      · exact absurd hfa h0
      · rfl
    by_cases h1 : attemptFails hashFn env expected 1 = false
    · obtain ⟨raw, -, -, hok, -⟩ :=
        fetchAttempts_success_at hashFn env uri expected 1 (by omega)
          (by
            intro k hk
            interval_cases k
            exact h0t) h1
      rw [hok] at hres
      exact Except.noConfusion hres
    · have h1t : attemptFails hashFn env expected 1 = true := by
        cases hfa : attemptFails hashFn env expected 1
        · exact absurd hfa h1
        · rfl
      by_cases h2 : attemptFails hashFn env expected 2 = false
      · obtain ⟨raw, -, -, hok, -⟩ :=
          fetchAttempts_success_at hashFn env uri expected 2 (by omega)
            (by
              intro k hk
              interval_cases k
              · exact h0t
              · exact h1t) h2
        rw [hok] at hres
        exact Except.noConfusion hres
      · have h2t : attemptFails hashFn env expected 2 = true := by
          cases hfa : attemptFails hashFn env expected 2
          · exact absurd hfa h2
          · rfl
        interval_cases i
        · rw [h0t] at hfi2; cases hfi2
        · rw [h1t] at hfi2; cases hfi2
        · rw [h2t] at hfi2; cases hfi2

/-! Helper lemmas about batching. -/

lemma loadAndBatch_length (samples : List Nat) (B : Nat) :
    (loadAndBatch samples B).length = (samples.length + B - 1) / B := by
  simp [loadAndBatch, pythonRange]

lemma loadAndBatch_get (samples : List Nat) (B j : Nat)
    (hj : j < (loadAndBatch samples B).length) :
    (loadAndBatch samples B).get ⟨j, hj⟩ =
      [(featuresKey, (samples.drop (j * B)).take B)] := by
  simp [loadAndBatch, pythonRange] at hj ⊢

/-- Arithmetic of the ceiling division `(N + B - 1) / B` that counts the
batches of `N` samples at batch size `B`. -/
lemma ceil_div_bounds (N B : Nat) (hB : 0 < B) (hN : 0 < N) :
    ((N + B - 1) / B - 1) * B < N ∧ N ≤ ((N + B - 1) / B) * B ∧
      0 < (N + B - 1) / B ∧
      (N % B = 0 → N - ((N + B - 1) / B - 1) * B = B) ∧
      (N % B ≠ 0 → N - ((N + B - 1) / B - 1) * B = N % B) := by
  have hdm := Nat.div_add_mod N B
  have hmlt : N % B < B := Nat.mod_lt _ hB
  rcases Nat.eq_zero_or_pos (N / B) with hk | hk
  · have hz : B * (N / B) = 0 := by rw [hk, Nat.mul_zero]
    have hmod : N % B = N := by omega
    have hq : (N + B - 1) / B = 1 := by
      have hlt : (N + B - 1) / B < 2 := by
        rw [Nat.div_lt_iff_lt_mul hB]
        omega
      have hge : 1 ≤ (N + B - 1) / B := by
        rw [Nat.le_div_iff_mul_le hB]
        omega
      omega
    rw [hq]
    simp only [Nat.sub_self, Nat.zero_mul, Nat.one_mul]
    omega
  · have hcm : B * (N / B) = N / B * B := Nat.mul_comm _ _
    rcases Nat.eq_zero_or_pos (N % B) with hm | hm
    · have he : N + B - 1 = B * (N / B) + (B - 1) := by omega
      have hq : (N + B - 1) / B = N / B := by
        rw [he, Nat.mul_add_div hB]
        have hz2 : (B - 1) / B = 0 := Nat.div_eq_of_lt (by omega)
        omega
      have hsucc2 : (N / B - 1 + 1) * B = (N / B - 1) * B + 1 * B :=
        Nat.add_mul _ _ _
      have hone : N / B - 1 + 1 = N / B := Nat.succ_pred_eq_of_pos hk
      rw [hone, Nat.one_mul] at hsucc2
      rw [hq]
      omega
    · have hms : B * (N / B + 1) = B * (N / B) + B := Nat.mul_succ _ _
      have he : N + B - 1 = B * (N / B + 1) + (N % B - 1) := by omega
      have hq : (N + B - 1) / B = N / B + 1 := by
        rw [he, Nat.mul_add_div hB]
        have hz2 : (N % B - 1) / B = 0 := Nat.div_eq_of_lt (by omega)
        omega
      have hsucc : (N / B + 1) * B = N / B * B + 1 * B := Nat.add_mul _ _ _
      rw [hq]
      rw [Nat.one_mul] at hsucc
      simp only [Nat.add_sub_cancel]
      omega

/-! Helper lemmas about manifest parsing. -/

/-- Whether a Python value is a dict. -/
def isPyDictB : PyVal → Bool := fun v =>
  match v with
  | .pyDict _ => true
  | _ => false

/-- Whether a Python value is a dict that has no `"hash"` key. -/
def lacksHash : PyVal → Bool := fun v =>
  match v with
  | .pyDict kvs => !(kvs.any (fun kv => kv.1 == hashKey))
  | _ => false

lemma pyAllContain_false_of_lacks (entries : List PyVal)
    (hdicts : ∀ d ∈ entries, isPyDictB d = true)
    (hlacks : ∃ d ∈ entries, lacksHash d = true) :
    pyAllContain hashKey entries = .ok false := by
  induction entries with
  | nil =>
    rcases hlacks with ⟨d, hd, -⟩
    cases hd
  | cons d ds ih =>
    have hd := hdicts d (List.mem_cons_self _ _)
    cases d with
    | pyDict kvs =>
      by_cases hany : kvs.any (fun kv => kv.1 == hashKey) = true
      · have hstep : pyAllContain hashKey (PyVal.pyDict kvs :: ds) =
            pyAllContain hashKey ds := by
          simp [pyAllContain, pyContains, hany]
        rw [hstep]
        apply ih
        · intro x hx
          exact hdicts x (List.mem_cons_of_mem _ hx)
        · rcases hlacks with ⟨w, hw, hlw⟩
          rcases List.mem_cons.mp hw with hweq | hwtail
          · subst hweq
            simp [lacksHash, hany] at hlw
          · exact ⟨w, hwtail, hlw⟩
      · have hany2 : kvs.any (fun kv => kv.1 == hashKey) = false := by
          cases hx : kvs.any (fun kv => kv.1 == hashKey)
          · rfl
          · exact absurd hx hany
        simp [pyAllContain, pyContains, hany2]
    | pyNull => simp [isPyDictB] at hd
    | pyBool b => simp [isPyDictB] at hd
    | pyInt n => simp [isPyDictB] at hd
    | pyStr s => simp [isPyDictB] at hd
    | pyList xs => simp [isPyDictB] at hd

lemma pyAllContain_true_mem (key : String) (entries : List PyVal)
    (h : pyAllContain key entries = .ok true) :
    ∀ d ∈ entries, pyContains key d = .ok true := by
  induction entries with
  | nil =>
    intro d hd
    cases hd
  | cons d0 ds ih =>
    intro d hd
    cases hc : pyContains key d0 with
    | error e =>
      simp only [pyAllContain, hc] at h
      cases h
    | ok b =>
      cases b with
      | false =>
        simp only [pyAllContain, hc] at h
        cases h
      | true =>
        simp only [pyAllContain, hc] at h
        rcases List.mem_cons.mp hd with hdeq | hdmem
        · subst hdeq
          exact hc
        · exact ih h d hdmem

/-- Inversion of a successful `_parse_manifest`: the returned manifest is
the parsed input itself, it passed the `"datasets"` membership check, and
the datasets member iterates to entries that all passed the `"hash"`
membership check. -/
lemma parseManifest_ok_inv (input : Except Unit PyVal) (m : PyVal)
    (h : parseManifest input = .ok m) :
    input = .ok m ∧
    pyContains datasetsKey m = .ok true ∧
    ∃ ds entries, pySubscript m datasetsKey = .ok ds ∧
      pyIterate ds = .ok entries ∧
      pyAllContain hashKey entries = .ok true := by
  cases input with
  | error u => simp [parseManifest] at h
  | ok v =>
    simp only [parseManifest] at h
    cases h1 : pyContains datasetsKey v with
    | error e => simp only [h1] at h; cases h
    | ok b =>
      cases b with
      | false => simp only [h1] at h; cases h
      | true =>
        simp only [h1] at h
        cases h2 : pySubscript v datasetsKey with
        | error e => simp only [h2] at h; cases h
        | ok ds =>
          simp only [h2] at h
          cases h3 : pyIterate ds with
          | error e => simp only [h3] at h; cases h
          | ok entries =>
            simp only [h3] at h
            cases h4 : pyAllContain hashKey entries with
            | error e => simp only [h4] at h; cases h
            | ok bb =>
              cases bb with
              | false => simp only [h4] at h; cases h
              | true =>
                simp only [h4, Except.ok.injEq] at h
                subst h
                exact ⟨rfl, h1, ds, entries, h2, h3, h4⟩

/-! Claim theorems. -/

/-- C1 (code bug evaluation): with chain verification enabled and an
external integrity authority that confirms no digest whatsoever,
initialization of a well-formed manifest still succeeds;
`_verify_manifest_on_chain` is a log-only stub, so `ManifestTampered` is
never raised and the unconfirmed manifest remains fully usable. -/
theorem initializeLoader_ignores_authority :
    initializeLoader true (.ok goodManifest) rejectAll = .ok goodManifest ∧
    initializeLoader true (.ok goodManifest) rejectAll ≠
      .error InitErr.manifestTampered := by
  refine ⟨rfl, fun h => ?_⟩
  have h2 : (Except.ok goodManifest : Except InitErr PyVal) =
      Except.error InitErr.manifestTampered := h
  exact Except.noConfusion h2

/-- C2 (code bug evaluation): for a shard whose cache file exists and
whose stored bytes rehash to the expected digest, `_fetch_shard` does not
return the cached path — `_validate_cached_file` calls the nonexistent
`self._generate_hash` and the resulting `AttributeError` escapes (no
download is attempted either: the error is raised before the retry
loop). -/
theorem fetchShard_cache_hit_raises :
    demoHash cachedEnv.cachedBytes = hexGood ∧
    (fetchShard demoHash cachedEnv uriA hexGood).1 =
      .error FetchErr.attributeError ∧
    (fetchShard demoHash cachedEnv uriA hexGood).2 = [] :=
  ⟨rfl, rfl, rfl⟩

/-- A fetch environment with no cache file and a transport that raises on
every attempt. -/
def envFailAll : ShardEnv :=
  { cacheExists := false, cachedBytes := [],
    download := fun _ => .error () }

/-- A fetch environment with no cache file whose transport returns
wrongly-hashed bytes on attempts 0 and 1 and the right bytes on
attempt 2. -/
def mismatchEnv : ShardEnv :=
  { cacheExists := false, cachedBytes := [],
    download := fun i => .ok (if i == 2 then [1, 2, 3] else [9]) }

/-- A fetch environment with no cache file whose transport raises on
attempts 0 and 1 and returns the right bytes on attempt 2. -/
def raiseTwiceEnv : ShardEnv :=
  { cacheExists := false, cachedBytes := [],
    download := fun i => if i == 2 then .ok [1, 2, 3] else .error () }

/-- C3: reaching the download loop (no cache file), `_fetch_shard` ends in
the `IOError` carrying the shard URI and the attempt count 3 exactly when
all three attempts fail, where an attempt fails either by a raised
exception or by a hash mismatch on the downloaded payload (a mismatch is
retried, never immediately fatal); and at the first verified match the
payload is written to the cache and returned. -/
theorem fetchShard_shard_unavailable (hashFn : List Nat → String)
    (env : ShardEnv) (uri expected : String)
    (hmiss : env.cacheExists = false) :
    ((fetchShard hashFn env uri expected).1 =
        .error (.shardUnavailable uri 3) ↔
      ∀ i, i < 3 → attemptFails hashFn env expected i = true) ∧
    (∀ j, j < 3 →
      (∀ i, i < j → attemptFails hashFn env expected i = true) →
      attemptFails hashFn env expected j = false →
      ∃ raw, env.download j = .ok raw ∧ (hashFn raw == expected) = true ∧
        (fetchShard hashFn env uri expected).1 =
          .ok { data := raw, fromCache := false } ∧
        Ev.writeCache ∈ (fetchShard hashFn env uri expected).2) := by
  rw [fetchShard_eq_attempts hashFn env uri expected hmiss]
  refine ⟨⟨fetchAttempts_unavailable_all_fail hashFn env uri expected, ?_⟩, ?_⟩
  · intro h
    exact fetchAttempts_all_fail hashFn env uri expected
      (h 0 (by omega)) (h 1 (by omega)) (h 2 (by omega))
  · intro j hj hprev hsucc
    exact fetchAttempts_success_at hashFn env uri expected j hj hprev hsucc

/-- Witness for C3 at a concrete environment where every attempt
raises. -/
theorem fetchShard_shard_unavailable_witness :
    envFailAll.cacheExists = false ∧
    ((fetchShard demoHash envFailAll uriA hexGood).1 =
        .error (.shardUnavailable uriA 3) ↔
      ∀ i, i < 3 → attemptFails demoHash envFailAll hexGood i = true) ∧
    (fetchShard demoHash envFailAll uriA hexGood).1 =
      .error (.shardUnavailable uriA 3) :=
  ⟨rfl, (fetchShard_shard_unavailable demoHash envFailAll uriA hexGood rfl).1,
    rfl⟩

/-- C5 counterexample: a shard failing on attempts 1 and 2 (by hash
mismatch of the downloaded payload) and succeeding on attempt 3 incurs no
backoff wait at all — `time.sleep` sits only in the `except` clause, which
a mere mismatch never enters — refuting the claimed exactly-two waits of
1 s and 2 s for this scenario. -/
theorem backoff_counterexample :
    attemptFails demoHash mismatchEnv hexGood 0 = true ∧
    attemptFails demoHash mismatchEnv hexGood 1 = true ∧
    attemptFails demoHash mismatchEnv hexGood 2 = false ∧
    (fetchShard demoHash mismatchEnv uriA hexGood).1 =
      .ok { data := [1, 2, 3], fromCache := false } ∧
    (fetchShard demoHash mismatchEnv uriA hexGood).2 =
      [.downloadCall 0, .downloadCall 1, .downloadCall 2, .writeCache] ∧
    (fetchShard demoHash mismatchEnv uriA hexGood).2.filter isSleep = [] ∧
    (fetchShard demoHash mismatchEnv uriA hexGood).2.filter isSleep ≠
      [.sleepFor 1, .sleepFor 2] := by
  refine ⟨rfl, rfl, rfl, rfl, rfl, rfl, fun h => ?_⟩
  have h2 : ([] : List Ev) = [.sleepFor 1, .sleepFor 2] := h
  exact List.noConfusion h2

/-- C5 amended: in the download loop, the sleeps are exactly
`2 ^ i` seconds for each executed attempt `i` that fails with a raised
exception — including the final failed attempt before the `IOError` — an
attempt failing only hash verification is retried with no wait, no wait
follows a succeeding attempt, and the download calls are exactly the
executed attempts in order. -/
theorem backoff_waits_characterized (hashFn : List Nat → String)
    (env : ShardEnv) (uri expected : String)
    (hmiss : env.cacheExists = false) :
    (fetchShard hashFn env uri expected).2.filter isSleep =
      ((executedAttempts hashFn env expected).filter
        (fun i => attemptRaises env i)).map (fun i => Ev.sleepFor (2 ^ i)) ∧
    (fetchShard hashFn env uri expected).2.filter isDownloadCall =
      (executedAttempts hashFn env expected).map Ev.downloadCall := by
  rw [fetchShard_eq_attempts hashFn env uri expected hmiss]
  cases hd0 : env.download 0 with
  | error e0 =>
    cases hd1 : env.download 1 with
    | error e1 =>
      cases hd2 : env.download 2 with
      | error e2 =>
        simp [fetchAttempts, executedAttempts, attemptFails, attemptRaises,
          isSleep, isDownloadCall, hd0, hd1, hd2]
      | ok raw2 =>
        rcases Bool.eq_false_or_eq_true (hashFn raw2 == expected) with
          hh2 | hh2 <;>
          simp [fetchAttempts, executedAttempts, attemptFails, attemptRaises,
            isSleep, isDownloadCall, hd0, hd1, hd2, hh2]
    | ok raw1 =>
      rcases Bool.eq_false_or_eq_true (hashFn raw1 == expected) with
        hh1 | hh1
      · simp [fetchAttempts, executedAttempts, attemptFails, attemptRaises,
          isSleep, isDownloadCall, hd0, hd1, hh1]
      · cases hd2 : env.download 2 with
        | error e2 =>
          simp [fetchAttempts, executedAttempts, attemptFails, attemptRaises,
            isSleep, isDownloadCall, hd0, hd1, hd2, hh1]
        | ok raw2 =>
          rcases Bool.eq_false_or_eq_true (hashFn raw2 == expected) with
            hh2 | hh2 <;>
            simp [fetchAttempts, executedAttempts, attemptFails,
              attemptRaises, isSleep, isDownloadCall, hd0, hd1, hd2, hh1, hh2]
  | ok raw0 =>
    rcases Bool.eq_false_or_eq_true (hashFn raw0 == expected) with hh0 | hh0
    · simp [fetchAttempts, executedAttempts, attemptFails, attemptRaises,
        isSleep, isDownloadCall, hd0, hh0]
    · cases hd1 : env.download 1 with
      | error e1 =>
        cases hd2 : env.download 2 with
        | error e2 =>
          simp [fetchAttempts, executedAttempts, attemptFails, attemptRaises,
            isSleep, isDownloadCall, hd0, hd1, hd2, hh0]
        | ok raw2 =>
          rcases Bool.eq_false_or_eq_true (hashFn raw2 == expected) with
            hh2 | hh2 <;>
            simp [fetchAttempts, executedAttempts, attemptFails,
              attemptRaises, isSleep, isDownloadCall, hd0, hd1, hd2, hh0, hh2]
      | ok raw1 =>
        rcases Bool.eq_false_or_eq_true (hashFn raw1 == expected) with
          hh1 | hh1
        · simp [fetchAttempts, executedAttempts, attemptFails, attemptRaises,
            isSleep, isDownloadCall, hd0, hd1, hh0, hh1]
        · cases hd2 : env.download 2 with
          | error e2 =>
            simp [fetchAttempts, executedAttempts, attemptFails,
              attemptRaises, isSleep, isDownloadCall, hd0, hd1, hd2, hh0, hh1]
          | ok raw2 =>
            rcases Bool.eq_false_or_eq_true (hashFn raw2 == expected) with
              hh2 | hh2 <;>
              simp [fetchAttempts, executedAttempts, attemptFails,
                attemptRaises, isSleep, isDownloadCall, hd0, hd1, hd2, hh0,
                hh1, hh2]

/-- Witness for the amended C5 at a concrete environment raising on
attempts 0 and 1 and succeeding on attempt 2: exactly two waits, of 1 s
and 2 s, and three download calls. -/
theorem backoff_waits_characterized_witness :
    raiseTwiceEnv.cacheExists = false ∧
    ((fetchShard demoHash raiseTwiceEnv uriA hexGood).2.filter isSleep =
      ((executedAttempts demoHash raiseTwiceEnv hexGood).filter
        (fun i => attemptRaises raiseTwiceEnv i)).map
          (fun i => Ev.sleepFor (2 ^ i)) ∧
     (fetchShard demoHash raiseTwiceEnv uriA hexGood).2.filter
        isDownloadCall =
      (executedAttempts demoHash raiseTwiceEnv hexGood).map
        Ev.downloadCall) ∧
    (fetchShard demoHash raiseTwiceEnv uriA hexGood).2.filter isSleep =
      [.sleepFor 1, .sleepFor 2] ∧
    (fetchShard demoHash raiseTwiceEnv uriA hexGood).2.filter
        isDownloadCall =
      [.downloadCall 0, .downloadCall 1, .downloadCall 2] :=
  ⟨rfl, backoff_waits_characterized demoHash raiseTwiceEnv uriA hexGood rfl,
    rfl, rfl⟩

/-- C8 counterexample: the document `42` is valid JSON and lacks a
`datasets` array, yet `_parse_manifest` fails with an uncaught `TypeError`
(from `"datasets" in 42`), not with the `ValueError` conversions that
realize `ManifestMalformed`/`ManifestInvalid`. -/
theorem parseManifest_nonobject_typeerror :
    parseManifest (.ok (.pyInt 42)) = .error PyErr.typeError ∧
    PyErr.typeError ≠ PyErr.invalidJSON ∧
    PyErr.typeError ≠ PyErr.invalidStructure ∧
    PyErr.typeError ≠ PyErr.missingHashes := by
  exact ⟨rfl, by decide, by decide, by decide⟩

/-- C9 counterexample: `_parse_manifest` accepts a manifest whose
`datasets` list is empty, and one whose single descriptor has an empty
hash value and no `uri` field at all — refuting the non-empty /
non-empty-URI / non-empty-hash invariant for loaded manifests. -/
theorem manifest_invariant_counterexample :
    parseManifest (.ok emptyDatasetsManifest) = .ok emptyDatasetsManifest ∧
    pySubscript emptyDatasetsManifest datasetsKey = .ok (.pyList []) ∧
    parseManifest (.ok emptyHashManifest) = .ok emptyHashManifest ∧
    pySubscript emptyHashManifest datasetsKey =
      .ok (.pyList [.pyDict [(hashKey, .pyStr emptyStr)]]) ∧
    pyContains uriKey (.pyDict [(hashKey, .pyStr emptyStr)]) = .ok false ∧
    (.pyStr emptyStr : PyVal) = .pyStr emptyStr :=
  ⟨rfl, rfl, rfl, rfl, rfl, rfl⟩

/-- C10: `_parse_manifest` accepts `urilessManifest` (every entry has a
`hash`, the second lacks a `uri`), and `stream_batches` then raises
`KeyError("uri")` in the task-submission loop, aborting the whole stream
before a single batch is yielded — the defective shard is not skipped. -/
theorem streamBatches_keyerror_aborts (hashFn : List Nat → String)
    (envOf : String → ShardEnv) (batchSize : Nat) (sched : List Nat) :
    parseManifest (.ok urilessManifest) = .ok urilessManifest ∧
    streamBatches hashFn envOf batchSize urilessManifest sched =
      .error (PyErr.keyError uriKey) :=
  ⟨rfl, rfl⟩

/-- Samples of a small demonstration shard. -/
def demoSamples : List Nat := [1, 2, 3, 4, 5]

/-- A two-shard manifest: shard `uriA` then shard `uriB`, both expecting
digest `hexGood`. -/
def twoShardManifest : PyVal :=
  .pyDict [(datasetsKey, .pyList
    [.pyDict [(uriKey, .pyStr uriA), (hashKey, .pyStr hexGood)],
     .pyDict [(uriKey, .pyStr uriB), (hashKey, .pyStr hexGood)]])]

/-- The gathered `(uri, hash)` argument pairs of `twoShardManifest`. -/
def twoShardPairs : List (PyVal × PyVal) :=
  [(.pyStr uriA, .pyStr hexGood), (.pyStr uriB, .pyStr hexGood)]

/-- A fetch environment whose transport returns the right bytes at once. -/
def okDownloadEnv : ShardEnv :=
  { cacheExists := false, cachedBytes := [],
    download := fun _ => .ok [1, 2, 3] }

/-- Per-URI environments: shard `uriA` downloads fine, every other shard
fails all attempts. -/
def splitEnvOf : String → ShardEnv := fun u =>
  if u == uriA then okDownloadEnv else envFailAll

/-- A manifest whose single dataset entry is an empty dict (no hash). -/
def noHashManifest : PyVal :=
  .pyDict [(datasetsKey, .pyList [.pyDict []])]

/-- C6: for a fetched shard viewed as the flat array `samples` and batch
size `B > 0`, `_load_and_batch` yields exactly `⌈N / B⌉` batches; batch `j`
is the dict mapping the single key `"features"` to the slice of `samples`
starting at offset `j * B`, of at most `B` elements; every batch before
the last has exactly `B` elements; and the last batch has `N mod B`
elements (or `B` when `B` divides `N`). -/
theorem loadAndBatch_batching (samples : List Nat) (B : Nat) (hB : 0 < B) :
    (loadAndBatch samples B).length = (samples.length + B - 1) / B ∧
    (∀ j, ∀ hj : j < (loadAndBatch samples B).length,
      (loadAndBatch samples B).get ⟨j, hj⟩ =
        [(featuresKey, (samples.drop (j * B)).take B)] ∧
      ((samples.drop (j * B)).take B).length ≤ B) ∧
    (∀ j, j + 1 < (loadAndBatch samples B).length →
      ((samples.drop (j * B)).take B).length = B) ∧
    (0 < samples.length →
      ((samples.drop (((samples.length + B - 1) / B - 1) * B)).take B).length
        = if samples.length % B = 0 then B else samples.length % B) := by
  refine ⟨loadAndBatch_length samples B, ?_, ?_, ?_⟩
  · intro j hj
    refine ⟨loadAndBatch_get samples B j hj, ?_⟩
    simp only [List.length_take]
    exact min_le_left _ _
  · intro j hjlt
    rw [loadAndBatch_length] at hjlt
    have hN : 0 < samples.length := by
      by_contra hN0
      have h0 : samples.length = 0 := by omega
      rw [h0] at hjlt
      have hz : (0 + B - 1) / B = 0 := Nat.div_eq_of_lt (by omega)
      omega
    obtain ⟨hb1, hb2, hb3, hb4, hb5⟩ := ceil_div_bounds samples.length B hB hN
    have hle : (j + 1) * B ≤ ((samples.length + B - 1) / B - 1) * B :=
      Nat.mul_le_mul_right _ (by omega)
    have hadd : (j + 1) * B = j * B + 1 * B := Nat.add_mul _ _ _
    rw [Nat.one_mul] at hadd
    simp only [List.length_take, List.length_drop]
    omega
  · intro hN
    obtain ⟨hb1, hb2, hb3, hb4, hb5⟩ := ceil_div_bounds samples.length B hB hN
    simp only [List.length_take, List.length_drop]
    rcases Nat.eq_zero_or_pos (samples.length % B) with hm | hm
    · have he4 := hb4 hm
      rw [if_pos hm]
      omega
    · have he5 := hb5 (by omega)
      have hmlt2 : samples.length % B < B := Nat.mod_lt _ hB
      rw [if_neg (by omega)]
      omega

/-- Witness for C6 at five samples and batch size 2: three batches of
sizes 2, 2 and 1. -/
theorem loadAndBatch_batching_witness :
    0 < 2 ∧
    (loadAndBatch demoSamples 2).length = (demoSamples.length + 2 - 1) / 2 ∧
    (loadAndBatch demoSamples 2).length = 3 ∧
    loadAndBatch demoSamples 2 =
      [[(featuresKey, [1, 2])], [(featuresKey, [3, 4])],
       [(featuresKey, [5])]] :=
  ⟨by decide, (loadAndBatch_batching demoSamples 2 (by decide)).1, rfl, rfl⟩

/-- C4: when the gathered shard list of a manifest has at position `k` a
shard whose fetch-and-slice body raises (whether the `IOError` realizing
`ShardUnavailable` or any other exception), the stream still succeeds and
delivers the concatenation of every shard's `_process_shard` output in
manifest order — the failing shard contributing the empty batch list and
every other shard contributing exactly its own batches. -/
theorem stream_isolates_shard_failure (hashFn : List Nat → String)
    (envOf : String → ShardEnv) (batchSize : Nat) (manifest : PyVal)
    (sched : List Nat) (pairs : List (PyVal × PyVal)) (k : Nat)
    (p : PyVal × PyVal) (e : FetchErr)
    (hgather : streamGather manifest = .ok pairs)
    (hp : pairs[k]? = some p)
    (hfail : shardBody hashFn envOf batchSize p.1 p.2 = .error e) :
    streamBatches hashFn envOf batchSize manifest sched =
      .ok (List.flatten (pairs.map
        (fun q => processShard hashFn envOf batchSize q.1 q.2))) ∧
    processShard hashFn envOf batchSize p.1 p.2 = [] := by
  constructor
  · simp [streamBatches, hgather]
  · simp [processShard, hfail]

/-- Witness for C4: in `twoShardManifest`, shard `uriB` fails all three
attempts while shard `uriA` succeeds; the stream yields exactly shard
`uriA`'s batches. -/
theorem stream_isolates_shard_failure_witness :
    streamGather twoShardManifest = .ok twoShardPairs ∧
    twoShardPairs[1]? = some (.pyStr uriB, .pyStr hexGood) ∧
    shardBody demoHash splitEnvOf 2 (.pyStr uriB) (.pyStr hexGood) =
      .error (.shardUnavailable uriB 3) ∧
    (streamBatches demoHash splitEnvOf 2 twoShardManifest [] =
      .ok (List.flatten (twoShardPairs.map
        (fun q => processShard demoHash splitEnvOf 2 q.1 q.2))) ∧
     processShard demoHash splitEnvOf 2 (.pyStr uriB) (.pyStr hexGood) =
      []) ∧
    streamBatches demoHash splitEnvOf 2 twoShardManifest [] =
      .ok [[(featuresKey, [1, 2])], [(featuresKey, [3])]] :=
  ⟨rfl, rfl, rfl,
    stream_isolates_shard_failure demoHash splitEnvOf 2 twoShardManifest []
      twoShardPairs 1 (.pyStr uriB, .pyStr hexGood)
      (.shardUnavailable uriB 3) rfl rfl rfl,
    rfl⟩

/-- Witness for C10 at concrete loader parameters. -/
theorem streamBatches_keyerror_aborts_witness :
    parseManifest (.ok urilessManifest) = .ok urilessManifest ∧
    streamBatches demoHash splitEnvOf 2 urilessManifest [] =
      .error (PyErr.keyError uriKey) :=
  streamBatches_keyerror_aborts demoHash splitEnvOf 2 []

/-- C7: the stream's value is independent of the worker pool's completion
schedule, equals the in-manifest-order concatenation of the shards'
batch lists, and within any successfully processed shard batch `j` is the
slice of the shard's data starting at offset `j * batchSize` — so batches
appear shard by shard in manifest order and, within a shard, at strictly
increasing sample offsets. -/
theorem stream_manifest_order (hashFn : List Nat → String)
    (envOf : String → ShardEnv) (batchSize : Nat) (manifest : PyVal)
    (sched sched2 : List Nat) (pairs : List (PyVal × PyVal))
    (hgather : streamGather manifest = .ok pairs) :
    streamBatches hashFn envOf batchSize manifest sched =
      streamBatches hashFn envOf batchSize manifest sched2 ∧
    streamBatches hashFn envOf batchSize manifest sched =
      .ok (List.flatten (pairs.map
        (fun q => processShard hashFn envOf batchSize q.1 q.2))) ∧
    (∀ q : PyVal × PyVal, ∀ bs,
      shardBody hashFn envOf batchSize q.1 q.2 = .ok bs →
      ∃ src : List Nat, ∀ j, ∀ hj : j < bs.length,
        bs.get ⟨j, hj⟩ =
          [(featuresKey, (src.drop (j * batchSize)).take batchSize)]) := by
  refine ⟨rfl, by simp [streamBatches, hgather], ?_⟩
  rintro ⟨u, hv⟩ bs hok
  cases u <;> cases hv <;> simp only [shardBody] at hok <;>
    try (exact absurd hok (by simp))
  case pyStr.pyStr s t =>
    cases hfetch : (fetchShard hashFn (envOf s) s t).1 with
    | error e =>
      rw [hfetch] at hok
      cases hok
    | ok res =>
      rw [hfetch] at hok
      simp only [Except.ok.injEq] at hok
      subst hok
      exact ⟨res.data, fun j hj => loadAndBatch_get res.data batchSize j hj⟩

/-- Witness for C7 at `twoShardManifest` under two different completion
schedules. -/
theorem stream_manifest_order_witness :
    streamGather twoShardManifest = .ok twoShardPairs ∧
    streamBatches demoHash splitEnvOf 2 twoShardManifest [0, 1] =
      streamBatches demoHash splitEnvOf 2 twoShardManifest [1, 0] ∧
    streamBatches demoHash splitEnvOf 2 twoShardManifest [0, 1] =
      .ok (List.flatten (twoShardPairs.map
        (fun q => processShard demoHash splitEnvOf 2 q.1 q.2))) :=
  ⟨rfl,
    (stream_manifest_order demoHash splitEnvOf 2 twoShardManifest
      [0, 1] [1, 0] twoShardPairs rfl).1,
    (stream_manifest_order demoHash splitEnvOf 2 twoShardManifest
      [0, 1] [1, 0] twoShardPairs rfl).2.1⟩

/-- C8 amended: a JSON-decode failure is converted to the invalid-JSON
`ValueError` (the spec's `ManifestMalformed`); a JSON object without a
`datasets` key fails with the invalid-structure `ValueError` (also
`ManifestMalformed`); a JSON object whose `datasets` value is a list of
objects one of which lacks a `hash` key fails with the missing-hashes
`ValueError` (the spec's `ManifestInvalid`); and a successful parse
returns the parsed document itself, never a silent empty substitute.
(A valid-JSON document that is not an object instead escapes with an
uncaught `TypeError`; see the counterexample.) -/
theorem parseManifest_error_taxonomy (input : Except Unit PyVal) :
    (∀ u : Unit, input = .error u →
      parseManifest input = .error .invalidJSON) ∧
    (∀ kvs, input = .ok (.pyDict kvs) →
      kvs.any (fun kv => kv.1 == datasetsKey) = false →
      parseManifest input = .error .invalidStructure) ∧
    (∀ kvs v ds, input = .ok (.pyDict kvs) →
      kvs.find? (fun kv => kv.1 == datasetsKey) = some v →
      v.2 = .pyList ds →
      (∀ d ∈ ds, isPyDictB d = true) →
      (∃ d ∈ ds, lacksHash d = true) →
      parseManifest input = .error .missingHashes) ∧
    (∀ v m, input = .ok v → parseManifest input = .ok m → m = v) := by
  refine ⟨?_, ?_, ?_, ?_⟩
  · intro u hin
    subst hin
    rfl
  · intro kvs hin hany
    subst hin
    simp [parseManifest, pyContains, hany]
  · intro kvs v ds hin hfind hv2 hdicts hlacks
    subst hin
    have hmem := List.mem_of_find?_eq_some hfind
    have hpred := List.find?_some hfind
    have hany : kvs.any (fun kv => kv.1 == datasetsKey) = true :=
      List.any_eq_true.mpr ⟨v, hmem, hpred⟩
    have hall : pyAllContain hashKey ds = .ok false :=
      pyAllContain_false_of_lacks ds hdicts hlacks
    simp [parseManifest, pyContains, pySubscript, pyIterate, hany, hfind,
      hv2, hall]
  · intro v m hin hp
    subst hin
    have h2 := (parseManifest_ok_inv _ m hp).1
    injection h2 with h3
    exact h3.symm

/-- Witness for the amended C8 at four concrete documents. -/
theorem parseManifest_error_taxonomy_witness :
    parseManifest (.error ()) = .error .invalidJSON ∧
    parseManifest (.ok (.pyDict [])) = .error .invalidStructure ∧
    parseManifest (.ok noHashManifest) = .error .missingHashes ∧
    goodManifest = goodManifest :=
  ⟨(parseManifest_error_taxonomy (.error ())).1 () rfl,
    (parseManifest_error_taxonomy (.ok (.pyDict []))).2.1 [] rfl rfl,
    (parseManifest_error_taxonomy (.ok noHashManifest)).2.2.1
      [(datasetsKey, .pyList [.pyDict []])]
      (datasetsKey, .pyList [.pyDict []]) [.pyDict []] rfl rfl rfl
      (by
        intro d hd
        rw [List.mem_singleton] at hd
        subst hd
        rfl)
      ⟨.pyDict [], List.mem_singleton.mpr rfl, rfl⟩,
    (parseManifest_error_taxonomy (.ok goodManifest)).2.2.2
      goodManifest goodManifest rfl rfl⟩

/-- C9 amended: every manifest a successful `_parse_manifest` returns is
the parsed document itself, has a `datasets` member, and every entry of
that member passes the `"hash" in entry` check; nothing forces the entry
sequence to be non-empty, entries to carry a `uri`, or hash values to be
non-empty strings. -/
theorem loaded_manifest_shape (input : Except Unit PyVal) (m : PyVal)
    (h : parseManifest input = .ok m) :
    input = .ok m ∧
    ∃ ds entries, pySubscript m datasetsKey = .ok ds ∧
      pyIterate ds = .ok entries ∧
      ∀ d ∈ entries, pyContains hashKey d = .ok true := by
  obtain ⟨hin, -, ds, entries, h2, h3, h4⟩ := parseManifest_ok_inv input m h
  exact ⟨hin, ds, entries, h2, h3, pyAllContain_true_mem hashKey entries h4⟩

/-- Witness for the amended C9 at `goodManifest`. -/
theorem loaded_manifest_shape_witness :
    parseManifest (.ok goodManifest) = .ok goodManifest ∧
    ((.ok goodManifest : Except Unit PyVal) = .ok goodManifest ∧
      ∃ ds entries, pySubscript goodManifest datasetsKey = .ok ds ∧
        pyIterate ds = .ok entries ∧
        ∀ d ∈ entries, pyContains hashKey d = .ok true) :=
  ⟨rfl, loaded_manifest_shape (.ok goodManifest) goodManifest rfl⟩

end Umazen
